import Mathlib

/-!
Verification of the gitbase online/offline record store
(`src/gitbase/dataSystem.py`, `src/gitbase/playerDataSystem.py`).

A record is modelled as an ordered field mapping; a stored file's bytes are
modelled symbolically by `Content`: `plain v` is the UTF-8 JSON serialization
of `v` (`json.dumps`), `cipher v` is the Fernet encryption of that JSON
(`fernet.encrypt`), and `garbage` is an undecodable byte string (corrupted
file or ciphertext under the wrong key).  Fernet decryption succeeds exactly
on `cipher v` (authenticated encryption), `json.loads` succeeds exactly on
`plain v`.

The world state `GBState` carries the remote store (GitHub contents API,
path → file with a last-modified time), the local backup directory
(key → file with an mtime), the connectivity-probe result `online`
(`is_online()`), a clock `now` used to stamp writes, and `writeLog`, the
sequence of remote write calls issued (`GitBase.write_data` invocations),
used to count and inspect remote writes.

Remote calls can fail; each operation takes the outcome of its remote call
as an explicit `RemoteOutcome` argument: `status c` means the HTTP call
completed with status `c`, `exn` means the transport raised an exception.
-/

/-- A record: ordered mapping of field name to (scalar) value, as produced by
`player_instance.__dict__` or an arbitrary JSON value. -/
abbrev Record := List (String × Int)

/-- Symbolic file contents: plain JSON of a record, Fernet ciphertext of the
JSON of a record, or undecodable bytes. -/
inductive Content where
  | plain (v : Record)
  | cipher (v : Record)
  | garbage
deriving DecidableEq, Repr

/-- A file in the remote store: its content string and the commit
last-modified timestamp reported by the host API. -/
structure RemoteFile where
  content : Content
  mtime : Nat
deriving DecidableEq, Repr

/-- A file in the local backup directory: its bytes and its filesystem
modification time (`os.path.getmtime`). -/
structure LocalFile where
  content : Content
  mtime : Nat
deriving DecidableEq, Repr

/-- `KeyValue` as returned by `DataSystem.load_data` / `load_offline_data`. -/
structure KeyValue where
  key : String
  value : Record
deriving DecidableEq, Repr

/-- World state threaded through the operations. -/
structure GBState where
  remoteFiles : String → Option RemoteFile
  localFiles : String → Option LocalFile
  online : Bool
  now : Nat
  writeLog : List (String × Content)

/-- `fernet.encrypt(json.dumps v)` (`DataSystem.encrypt_data` applied to the
serialized record). -/
def encryptData (v : Record) : Content := Content.cipher v

/-- `json.dumps v` without encryption. -/
def jsonDumps (v : Record) : Content := Content.plain v

/-- `fernet.decrypt` followed by nothing: succeeds exactly on authenticated
ciphertext produced with the same key (`DataSystem.decrypt_data`);
`none` models the raised decryption exception. -/
def decryptData : Content → Option Record
  | Content.cipher v => some v
  | _ => none

/-- `json.loads` on a raw string: succeeds exactly on plain JSON;
`none` models the raised `JSONDecodeError`. -/
def jsonLoads : Content → Option Record
  | Content.plain v => some v
  | _ => none

/-- Outcome of one remote HTTP call, supplied by the environment. -/
inductive RemoteOutcome where
  | status (code : Nat)
  | exn
deriving DecidableEq, Repr

/-- Modelled from the spec: the Remote Store Client `put` primitive
(`GitBase.write_data`, absent from `src/`): one HTTP PUT that creates or
overwrites the file; a 200/201 status means the write took effect, any other
completed status means it did not; `exn` is a transport exception (store
unchanged).  Every invocation is appended to `writeLog`.  Returns the new
state and `some code`, or `none` when the call raised. -/
def writeData (st : GBState) (path : String) (c : Content) (out : RemoteOutcome) :
    GBState × Option Nat :=
  let st1 : GBState := { st with writeLog := st.writeLog ++ [(path, c)] }
  match out with
  | RemoteOutcome.status code =>
      if code = 200 ∨ code = 201 then
        ({ st1 with remoteFiles := fun p => if p = path then some ⟨c, st.now⟩ else st.remoteFiles p },
          some code)
      else (st1, some code)
  | RemoteOutcome.exn => (st1, none)

/-- Modelled from the spec: the Remote Store Client `delete` primitive
(`GitBase.delete_data`, absent from `src/`): one HTTP DELETE; status 204
means the remote file was removed, any other completed status leaves the
store unchanged; `exn` is a transport exception. -/
def deleteRemote (st : GBState) (path : String) (out : RemoteOutcome) :
    GBState × Option Nat :=
  match out with
  | RemoteOutcome.status code =>
      if code = 204 then
        ({ st with remoteFiles := fun p => if p = path then none else st.remoteFiles p },
          some code)
      else (st, some code)
  | RemoteOutcome.exn => (st, none)

/-- Write a file into the local backup directory, stamping it with the
current time. -/
def setLocal (st : GBState) (key : String) (f : LocalFile) : GBState :=
  { st with localFiles := fun k => if k = key then some f else st.localFiles k }

/-- `DataSystem.save_offline_data`: always encrypts the serialized value and
writes it to `gitbase/data/<key>.gitbase`. -/
def save_offline_data (st : GBState) (key : String) (v : Record) : GBState :=
  setLocal st key ⟨encryptData v, st.now⟩

/-- Result of `DataSystem.save_data` / `PlayerDataSystem.save_account`. -/
inductive SaveResult where
  | savedOnline (code : Nat)
  | onlineError (code : Nat)
  | savedOffline
  | recoveredOffline
deriving DecidableEq, Repr

/-- `DataSystem.save_data`: serialize (encrypting when asked); when online,
call `write_data` and only log the outcome (2xx logged green, anything else
logged red — no local write on either); when the probe is offline, or when
the remote call raised, write the offline backup instead. -/
def save_data (st : GBState) (key : String) (v : Record) (encryption : Bool)
    (wout : RemoteOutcome) : GBState × SaveResult :=
  let c := if encryption then encryptData v else jsonDumps v
  if st.online then
    match writeData st key c wout with
    | (st1, some code) =>
        if code = 200 ∨ code = 201 then (st1, SaveResult.savedOnline code)
        else (st1, SaveResult.onlineError code)
    | (st1, none) => (save_offline_data st1 key v, SaveResult.recoveredOffline)
  else (save_offline_data st key v, SaveResult.savedOffline)

/-- Result of `DataSystem.load_data`: a `KeyValue`, the `None` fallthrough
(after printing "No online data found"), or a raised exception. -/
inductive LoadDataResult where
  | found (kv : KeyValue)
  | noData
  | exn
deriving DecidableEq, Repr

/-- `DataSystem.load_offline_data`: read `gitbase/data/<key>.gitbase`,
decrypt, parse.  A missing file or a failed decryption raises (re-wrapped as
`Exception`), modelled by `exn`. -/
def load_offline_data (st : GBState) (key : String) : LoadDataResult :=
  match st.localFiles key with
  | some lf =>
      match decryptData lf.content with
      | some v => LoadDataResult.found ⟨key, v⟩
      | none => LoadDataResult.exn
  | none => LoadDataResult.exn

/-- `DataSystem.load_data`: when online, read the remote file (`netOk = false`
models a transport exception on the read, which is re-raised); present
content is decrypted or parsed according to the `encryption` flag; absent
content falls through to `None` without consulting the local backup.  When
the probe is offline, delegate to `load_offline_data`. -/
def load_data (st : GBState) (key : String) (encryption : Bool) (netOk : Bool) :
    LoadDataResult :=
  if st.online then
    if netOk then
      match st.remoteFiles key with
      | some rf =>
          match (if encryption then decryptData rf.content else jsonLoads rf.content) with
          | some v => LoadDataResult.found ⟨key, v⟩
          | none => LoadDataResult.exn
      | none => LoadDataResult.noData
    else LoadDataResult.exn
  else load_offline_data st key

/-- `DataSystem.delete_data`: delete the remote copy (a raised remote
exception is caught and only logged), then remove the local backup only when
`deleteOffline` is true. -/
def delete_data (st : GBState) (key : String) (deleteOffline : Bool)
    (out : RemoteOutcome) : GBState :=
  let st1 := (deleteRemote st key out).1
  if deleteOffline then
    { st1 with localFiles := fun k => if k = key then none else st1.localFiles k }
  else st1

/-- `DataSystem.get_all`, online branch: iterate the listed files in order,
always decrypting each content (`decrypt_data` unconditionally); the first
decryption failure raises inside the single `try` wrapping the whole loop,
which aborts the enumeration — the partial dictionary accumulated so far is
returned. -/
def getAllData : List (String × Content) → List (String × Record)
  | [] => []
  | (k, c) :: rest =>
      match decryptData c with
      | some v => (k, v) :: getAllData rest
      | none => []

/-- `PlayerDataSystem.get_all`, online branch: same per-file decryption, but
the exception handler re-raises, so a single decryption failure makes the
whole call raise (`none`). -/
def getAllPlayers : List (String × Content) → Option (List (String × Record))
  | [] => some []
  | (k, c) :: rest =>
      match decryptData c with
      | some v => (getAllPlayers rest).map (fun l => (k, v) :: l)
      | none => none

/-- `setattr(player_instance, k, v)` on a `__dict__` modelled as an ordered
association list: overwrite in place when the attribute exists, append
otherwise. -/
def setField (r : Record) (k : String) (v : Int) : Record :=
  if r.any (fun p => p.1 == k) then
    r.map (fun p => if p.1 = k then (k, v) else p)
  else r ++ [(k, v)]

/-- The `for var, value in player_data.items(): setattr(...)` loop applied to
the instance: fold the loaded fields over the instance dictionary. -/
def applyFields (inst : Record) (data : Record) : Record :=
  data.foldl (fun r p => setField r p.1 p.2) inst

/-- `PlayerDataSystem.save_offline_account` (with `attributes=None`, so the
whole `__dict__` is taken): always encrypts the serialized instance and
writes `gitbase/players/<username>.gitbase`. -/
def save_offline_account (st : GBState) (username : String) (inst : Record) : GBState :=
  setLocal st username ⟨encryptData inst, st.now⟩

/-- `PlayerDataSystem.save_account` (with `attributes=None`): serialize
(encrypting when asked); when online, call `write_data`; on a 2xx status
also write the offline backup; on any other status only log the error (no
local write); when the probe is offline, or the remote call raised, write
only the offline backup. -/
def save_account (st : GBState) (username : String) (inst : Record)
    (encryption : Bool) (wout : RemoteOutcome) : GBState × SaveResult :=
  let c := if encryption then encryptData inst else jsonDumps inst
  if st.online then
    match writeData st username c wout with
    | (st1, some code) =>
        if code = 200 ∨ code = 201 then
          (save_offline_account st1 username inst, SaveResult.savedOnline code)
        else (st1, SaveResult.onlineError code)
    | (st1, none) => (save_offline_account st1 username inst, SaveResult.recoveredOffline)
  else (save_offline_account st username inst, SaveResult.savedOffline)

/-- Outcome of `PlayerDataSystem.load_offline_account`: the populated
instance dictionary, a missing backup file (prints and leaves the instance
unchanged), or a raised exception (failed decryption/parse). -/
inductive OfflineLoad where
  | loaded (r : Record)
  | missing
  | failed
deriving DecidableEq, Repr

/-- `PlayerDataSystem.load_offline_account`: read the backup file when it
exists, decrypt, parse, and assign every field onto the instance. -/
def load_offline_account (st : GBState) (username : String) (inst : Record) :
    OfflineLoad :=
  match st.localFiles username with
  | some lf =>
      match decryptData lf.content with
      | some v => OfflineLoad.loaded (applyFields inst v)
      | none => OfflineLoad.failed
  | none => OfflineLoad.missing

/-- The reconciliation test of `PlayerDataSystem.load_account`:
`offline_data_exists and offline_timestamp > online_timestamp`, where the
remote timestamp comes from `get_file_last_modified` (Remote Store Client
`lastModified`, modelled from the spec as the stored remote mtime). -/
def localNewer (st : GBState) (username : String) (rf : RemoteFile) : Bool :=
  match st.localFiles username with
  | some lf => decide (rf.mtime < lf.mtime)
  | none => false

/-- Result tag of `PlayerDataSystem.load_account`. -/
inductive LoadAccountResult where
  | loadedOnline
  | loadedOfflineSynced
  | loadedOfflineNoRemote
  | loadedOfflineOnly
  | noData
  | noBackup
  | exn
deriving DecidableEq, Repr

/-- `PlayerDataSystem.load_account`: when online (`netOk = false` models a
transport exception on the remote read, re-raised), with remote content
present compare timestamps: if the local backup is strictly newer, populate
the instance from it and push `json.dumps(player_instance.__dict__)` —
plain, ignoring the `encryption` flag — back to the remote path (`syncOut`
is that write's outcome; a raised sync write propagates as the function's
exception after the instance was already populated and the write attempt
logged); otherwise decode the remote content according to the flag and
populate the instance.  With remote content absent, fall back to the local
backup when it exists, else report no data.  When the probe is offline,
only the local backup is consulted.  Returns the final state, the final
instance dictionary, and the result tag (`exn` = the call raised). -/
def load_account (st : GBState) (username : String) (inst : Record)
    (encryption : Bool) (netOk : Bool) (syncOut : RemoteOutcome) :
    GBState × Record × LoadAccountResult :=
  if st.online then
    if netOk then
      match st.remoteFiles username with
      | some rf =>
          if localNewer st username rf then
            match load_offline_account st username inst with
            | OfflineLoad.loaded r =>
                let st1 := (writeData st username (jsonDumps r) syncOut).1
                match syncOut with
                | RemoteOutcome.status _ => (st1, r, LoadAccountResult.loadedOfflineSynced)
                | RemoteOutcome.exn => (st1, r, LoadAccountResult.exn)
            | _ => (st, inst, LoadAccountResult.exn)
          else
            match (if encryption then decryptData rf.content else jsonLoads rf.content) with
            | some v => (st, applyFields inst v, LoadAccountResult.loadedOnline)
            | none => (st, inst, LoadAccountResult.exn)
      | none =>
          match load_offline_account st username inst with
          | OfflineLoad.loaded r => (st, r, LoadAccountResult.loadedOfflineNoRemote)
          | OfflineLoad.missing => (st, inst, LoadAccountResult.noData)
          | OfflineLoad.failed => (st, inst, LoadAccountResult.exn)
    else (st, inst, LoadAccountResult.exn)
  else
    match load_offline_account st username inst with
    | OfflineLoad.loaded r => (st, r, LoadAccountResult.loadedOfflineOnly)
    | OfflineLoad.missing => (st, inst, LoadAccountResult.noBackup)
    | OfflineLoad.failed => (st, inst, LoadAccountResult.exn)

/-- `PlayerDataSystem.delete_account`: delete the remote copy; a raised
remote exception is re-raised (`none`); otherwise remove the local backup
only when `deleteOffline` is true. -/
def delete_account (st : GBState) (username : String) (deleteOffline : Bool)
    (out : RemoteOutcome) : Option GBState :=
  match out with
  | RemoteOutcome.exn => none
  | RemoteOutcome.status code =>
      let st1 := (deleteRemote st username (RemoteOutcome.status code)).1
      if deleteOffline then
        some { st1 with localFiles := fun k => if k = username then none else st1.localFiles k }
      else some st1

/-! ## Theorems -/

/-- Local-at-rest policy: every file in the local backup directory is
Fernet ciphertext. -/
def localEncrypted (st : GBState) : Prop :=
  ∀ k lf, st.localFiles k = some lf → ∃ v, lf.content = Content.cipher v

/-- Writing a freshly encrypted record into the local backup directory
preserves the all-ciphertext policy. -/
theorem localEncrypted_setLocal (st : GBState) (k : String) (v : Record) (t : Nat)
    (h : localEncrypted st) : localEncrypted (setLocal st k ⟨encryptData v, t⟩) := by
  intro k2 lf hl
  by_cases hk : k2 = k
  · subst hk
    simp [setLocal] at hl
    exact ⟨v, by simp [← hl, encryptData]⟩
  · simp [setLocal, hk] at hl
    exact h k2 lf hl

/-- C7: a load of key K with the same encryption flag immediately after a
save of (K, R) returns the record R, both on the fully remote path
(online, remote write succeeds with 200) and on the fully local path
(probe offline for both operations, any remote outcome). -/
theorem c7_save_load_roundtrip (st : GBState) (key : String) (v : Record) (e : Bool)
    (wout : RemoteOutcome) (netOk : Bool) :
    (st.online = true →
      load_data (save_data st key v e (RemoteOutcome.status 200)).1 key e true
        = LoadDataResult.found ⟨key, v⟩)
    ∧ (st.online = false →
      load_data (save_data st key v e wout).1 key e netOk
        = LoadDataResult.found ⟨key, v⟩) := by
  constructor
  · intro hon
    cases e <;>
      simp [save_data, writeData, load_data, hon, encryptData, jsonDumps, decryptData,
        jsonLoads]
  · intro hoff
    cases e <;> cases wout <;>
      simp [save_data, load_data, load_offline_data, save_offline_data, setLocal, hoff,
        encryptData, jsonDumps, decryptData]

/-- Concrete state: online, both stores empty. -/
def stC7 : GBState :=
  { remoteFiles := fun _ => none, localFiles := fun _ => none,
    online := true, now := 7, writeLog := [] }

/-- Concrete state: probe offline, both stores empty. -/
def stC7off : GBState :=
  { remoteFiles := fun _ => none, localFiles := fun _ => none,
    online := false, now := 7, writeLog := [] }

/-- C7 witness: the round trip evaluated at a concrete record on both
paths. -/
theorem c7_witness :
    load_data (save_data stC7 "k" [("a", 2)] true (RemoteOutcome.status 200)).1 "k" true true
      = LoadDataResult.found ⟨"k", [("a", 2)]⟩
    ∧ load_data (save_data stC7off "k" [("a", 2)] false RemoteOutcome.exn).1 "k" false false
      = LoadDataResult.found ⟨"k", [("a", 2)]⟩ :=
  ⟨(c7_save_load_roundtrip stC7 "k" [("a", 2)] true RemoteOutcome.exn false).1 rfl,
   (c7_save_load_roundtrip stC7off "k" [("a", 2)] false RemoteOutcome.exn false).2 rfl⟩

/-- C8: starting from a local backup directory containing only ciphertext,
any save (either system, any encryption flag, any remote outcome) leaves the
local backup directory containing only ciphertext: local backups are always
encrypted regardless of the caller's flag. -/
theorem c8_local_backups_encrypted (st : GBState) (key : String) (v inst : Record)
    (e : Bool) (w1 w2 : RemoteOutcome) (h : localEncrypted st) :
    localEncrypted (save_data st key v e w1).1
    ∧ localEncrypted (save_account st key inst e w2).1 := by
  constructor
  · cases hon : st.online
    · simpa [save_data, hon, save_offline_data] using
        localEncrypted_setLocal st key v st.now h
    · cases w1 with
      | status code =>
          by_cases hc : code = 200 ∨ code = 201
          · intro k2 lf hl
            simp [save_data, hon, writeData, hc] at hl
            exact h k2 lf hl
          · intro k2 lf hl
            simp [save_data, hon, writeData, hc] at hl
            exact h k2 lf hl
      | exn =>
          have h1 : localEncrypted { st with writeLog :=
              st.writeLog ++ [(key, if e then encryptData v else jsonDumps v)] } := by
            intro k2 lf hl
            exact h k2 lf hl
          simpa [save_data, hon, writeData, save_offline_data] using
            localEncrypted_setLocal _ key v st.now h1
  · cases hon : st.online
    · simpa [save_account, hon, save_offline_account] using
        localEncrypted_setLocal st key inst st.now h
    · cases w2 with
      | status code =>
          by_cases hc : code = 200 ∨ code = 201
          · have h1 : localEncrypted
                ((writeData st key (if e then encryptData inst else jsonDumps inst)
                  (RemoteOutcome.status code)).1) := by
              intro k2 lf hl
              simp [writeData, hc] at hl
              exact h k2 lf hl
            simpa [save_account, hon, writeData, hc, save_offline_account] using
              localEncrypted_setLocal _ key inst st.now h1
          · intro k2 lf hl
            simp [save_account, hon, writeData, hc] at hl
            exact h k2 lf hl
      | exn =>
          have h1 : localEncrypted { st with writeLog :=
              st.writeLog ++ [(key, if e then encryptData inst else jsonDumps inst)] } := by
            intro k2 lf hl
            exact h k2 lf hl
          simpa [save_account, hon, writeData, save_offline_account] using
            localEncrypted_setLocal _ key inst st.now h1

/-- Concrete state for the C8 witness: online, empty stores. -/
def stC8 : GBState :=
  { remoteFiles := fun _ => none, localFiles := fun _ => none,
    online := true, now := 4, writeLog := [] }

/-- C8 witness: the invariant evaluated through an unencrypted save that
degrades to the local path. -/
theorem c8_witness :
    localEncrypted stC8
    ∧ localEncrypted (save_data stC8 "k" [("a", 1)] false RemoteOutcome.exn).1 := by
  have h : localEncrypted stC8 := by
    intro k lf hl
    simp [stC8] at hl
  exact ⟨h, (c8_local_backups_encrypted stC8 "k" [("a", 1)] [("a", 1)] false
    RemoteOutcome.exn RemoteOutcome.exn h).1⟩

/-- C10: deleting key K with the delete-offline flag false leaves the whole
local backup directory untouched (for both systems — `delete_account` with a
completed remote call returns exactly the `delete_data` state), the remote
copy is removed when the host reports 204, and a subsequent offline-only
load of K still returns the previously saved local record (as a `KeyValue`
for `load_offline_data`, and applied onto the instance for an offline
`load_account`). -/
theorem c10_delete_preserves_local (st : GBState) (key : String) (lf : LocalFile)
    (v inst : Record) (e : Bool) (dout : RemoteOutcome) (code : Nat)
    (hl : st.localFiles key = some lf) (hld : decryptData lf.content = some v) :
    (delete_data st key false dout).localFiles = st.localFiles
    ∧ load_offline_data (delete_data st key false dout) key
        = LoadDataResult.found ⟨key, v⟩
    ∧ (dout = RemoteOutcome.status 204 →
        (delete_data st key false dout).remoteFiles key = none)
    ∧ delete_account st key false (RemoteOutcome.status code)
        = some (delete_data st key false (RemoteOutcome.status code))
    ∧ (load_account { delete_data st key false dout with online := false }
        key inst e true (RemoteOutcome.status 0)).2.1 = applyFields inst v := by
  have hframe : (delete_data st key false dout).localFiles = st.localFiles := by
    cases dout with
    | status c =>
        by_cases hc : c = 204 <;> simp [delete_data, deleteRemote, hc]
    | exn => simp [delete_data, deleteRemote]
  refine ⟨hframe, ?_, ?_, ?_, ?_⟩
  · simp [load_offline_data, hframe, hl, hld]
  · rintro rfl
    simp [delete_data, deleteRemote]
  · simp [delete_account, delete_data]
  · simp [load_account, load_offline_account, hframe, hl, hld]

/-- Concrete state for the C10 witness: online, one local backup. -/
def stC10 : GBState :=
  { remoteFiles := fun k => if k = "k" then some ⟨Content.cipher [("x", 5)], 2⟩ else none,
    localFiles := fun k => if k = "k" then some ⟨Content.cipher [("x", 5)], 3⟩ else none,
    online := true, now := 9, writeLog := [] }

/-- C10 witness: the delete evaluated at a concrete state with a 204 remote
outcome. -/
theorem c10_witness :
    (delete_data stC10 "k" false (RemoteOutcome.status 204)).localFiles = stC10.localFiles
    ∧ load_offline_data (delete_data stC10 "k" false (RemoteOutcome.status 204)) "k"
        = LoadDataResult.found ⟨"k", [("x", 5)]⟩
    ∧ (RemoteOutcome.status 204 = RemoteOutcome.status 204 →
        (delete_data stC10 "k" false (RemoteOutcome.status 204)).remoteFiles "k" = none)
    ∧ delete_account stC10 "k" false (RemoteOutcome.status 204)
        = some (delete_data stC10 "k" false (RemoteOutcome.status 204))
    ∧ (load_account { delete_data stC10 "k" false (RemoteOutcome.status 204) with online := false }
        "k" [] true true (RemoteOutcome.status 0)).2.1 = applyFields [] [("x", 5)] :=
  c10_delete_preserves_local stC10 "k" ⟨Content.cipher [("x", 5)], 3⟩ [("x", 5)] [] true
    (RemoteOutcome.status 204) 204 (by decide) rfl

/-- C1: in `load_account` while online with both copies present and the
local copy decodable: if the local mtime is strictly newer, the call
populates the instance from the local record and issues exactly one remote
write carrying exactly that content (as plain JSON); if the local mtime is
not newer, the call returns the remote record applied to the instance and
the state — in particular the write log — is completely unchanged (zero
remote writes). -/
theorem c1_reconciliation (st : GBState) (u : String) (inst lv rv : Record) (e : Bool)
    (rf : RemoteFile) (lf : LocalFile) (code : Nat)
    (hon : st.online = true)
    (hr : st.remoteFiles u = some rf)
    (hl : st.localFiles u = some lf)
    (hld : decryptData lf.content = some lv) :
    (rf.mtime < lf.mtime →
      (load_account st u inst e true (RemoteOutcome.status code)).2.1 = applyFields inst lv
      ∧ (load_account st u inst e true (RemoteOutcome.status code)).1.writeLog
          = st.writeLog ++ [(u, Content.plain (applyFields inst lv))]
      ∧ (load_account st u inst e true (RemoteOutcome.status code)).2.2
          = LoadAccountResult.loadedOfflineSynced)
    ∧ (lf.mtime ≤ rf.mtime →
      (if e then decryptData rf.content else jsonLoads rf.content) = some rv →
      load_account st u inst e true (RemoteOutcome.status code)
        = (st, applyFields inst rv, LoadAccountResult.loadedOnline)) := by
  constructor
  · intro hlt
    have hnew : localNewer st u rf = true := by
      simp [localNewer, hl, hlt]
    by_cases hc : code = 200 ∨ code = 201 <;>
      simp [load_account, hon, hr, hnew, load_offline_account, hl, hld, writeData,
        jsonDumps, hc]
  · intro hle hdec
    have hnew : localNewer st u rf = false := by
      simp [localNewer, hl]
      omega
    simp [load_account, hon, hr, hnew, hdec]

/-- Concrete state for the C1 witness: online, remote copy at mtime 1,
strictly newer local copy at mtime 5. -/
def stC1 : GBState :=
  { remoteFiles := fun k => if k = "u" then some ⟨Content.cipher [("gold", 2)], 1⟩ else none,
    localFiles := fun k => if k = "u" then some ⟨Content.cipher [("hp", 3)], 5⟩ else none,
    online := true, now := 8, writeLog := [] }

/-- C1 witness: the local-newer direction evaluated at a concrete state. -/
theorem c1_witness :
    (load_account stC1 "u" [] false true (RemoteOutcome.status 200)).2.1
      = applyFields [] [("hp", 3)]
    ∧ (load_account stC1 "u" [] false true (RemoteOutcome.status 200)).1.writeLog
      = stC1.writeLog ++ [("u", Content.plain (applyFields [] [("hp", 3)]))]
    ∧ (load_account stC1 "u" [] false true (RemoteOutcome.status 200)).2.2
      = LoadAccountResult.loadedOfflineSynced :=
  (c1_reconciliation stC1 "u" [] [("hp", 3)] [("hp", 3)] false
    ⟨Content.cipher [("gold", 2)], 1⟩ ⟨Content.cipher [("hp", 3)], 5⟩ 200
    rfl (by decide) (by decide) rfl).1 (by decide)

/-- C9: on the local-newer reconciliation path of `load_account`, the content
pushed back to the remote store is the plain (unencrypted) JSON of the full
populated instance dictionary, for every value of the `encryption` flag; when
the sync write succeeds the remote copy — whatever it held, encrypted or
not — now holds that plaintext. -/
theorem c9_sync_pushes_plaintext (st : GBState) (u : String) (inst lv : Record)
    (e : Bool) (rf : RemoteFile) (lf : LocalFile) (code : Nat)
    (hon : st.online = true)
    (hr : st.remoteFiles u = some rf)
    (hl : st.localFiles u = some lf)
    (hld : lf.content = Content.cipher lv)
    (hlt : rf.mtime < lf.mtime) :
    (load_account st u inst e true (RemoteOutcome.status code)).1.writeLog
      = st.writeLog ++ [(u, Content.plain (applyFields inst lv))]
    ∧ (code = 200 →
      (load_account st u inst e true (RemoteOutcome.status code)).1.remoteFiles u
        = some ⟨Content.plain (applyFields inst lv), st.now⟩) := by
  have hnew : localNewer st u rf = true := by
    simp [localNewer, hl, hlt]
  constructor
  · by_cases hc : code = 200 ∨ code = 201 <;>
      simp [load_account, hon, hr, hnew, load_offline_account, hl, hld, decryptData,
        writeData, jsonDumps, hc]
  · rintro rfl
    simp [load_account, hon, hr, hnew, load_offline_account, hl, hld, decryptData,
      writeData, jsonDumps]

/-- Concrete state for the C9 witness: online, encrypted remote copy at
mtime 2, newer local copy at mtime 6. -/
def stC9 : GBState :=
  { remoteFiles := fun k => if k = "u" then some ⟨Content.cipher [("lvl", 4)], 2⟩ else none,
    localFiles := fun k => if k = "u" then some ⟨Content.cipher [("lvl", 9)], 6⟩ else none,
    online := true, now := 11, writeLog := [] }

/-- C9 witness: the plaintext push evaluated at a concrete state with the
encryption flag set to true. -/
theorem c9_witness :
    (load_account stC9 "u" [] true true (RemoteOutcome.status 200)).1.writeLog
      = stC9.writeLog ++ [("u", Content.plain (applyFields [] [("lvl", 9)]))]
    ∧ (200 = 200 →
      (load_account stC9 "u" [] true true (RemoteOutcome.status 200)).1.remoteFiles "u"
        = some ⟨Content.plain (applyFields [] [("lvl", 9)]), stC9.now⟩) :=
  c9_sync_pushes_plaintext stC9 "u" [] [("lvl", 9)] true
    ⟨Content.cipher [("lvl", 4)], 2⟩ ⟨Content.cipher [("lvl", 9)], 6⟩ 200
    rfl (by decide) (by decide) rfl (by decide)

/-- Concrete state for the C2 counterexample: online, both stores empty. -/
def stC2 : GBState :=
  { remoteFiles := fun _ => none, localFiles := fun _ => none,
    online := true, now := 7, writeLog := [] }

/-- C2 counterexample: a save whose remote write completes with a non-2xx
status (500) writes nothing to the local backup store, for both `save_data`
and `save_account` — refuting the claim that every remote-side failure
results in a local backup write. -/
theorem c2_counterexample :
    (save_data stC2 "k" [("a", 1)] false (RemoteOutcome.status 500)).1.localFiles "k" = none
    ∧ (save_data stC2 "k" [("a", 1)] false (RemoteOutcome.status 500)).2
        = SaveResult.onlineError 500
    ∧ (save_account stC2 "u" [("a", 1)] false (RemoteOutcome.status 500)).1.localFiles "u"
        = none
    ∧ (save_account stC2 "u" [("a", 1)] false (RemoteOutcome.status 500)).2
        = SaveResult.onlineError 500 := by
  decide

/-- C2 amended: a save degrades to the local backup store when the probe
reports offline and when the remote write raises a transport exception — and
in no case surfaces a hard failure — but on a completed non-2xx HTTP status
the record is NOT written locally: the error is only logged and the local
store is left exactly as it was. -/
theorem c2_save_fallback (st : GBState) (key u : String) (v inst : Record)
    (e : Bool) (code : Nat) (hc : ¬(code = 200 ∨ code = 201)) :
    ((save_data { st with online := false } key v e RemoteOutcome.exn).1.localFiles key
        = some ⟨Content.cipher v, st.now⟩
      ∧ (save_data { st with online := false } key v e RemoteOutcome.exn).2
          = SaveResult.savedOffline)
    ∧ ((save_data { st with online := true } key v e RemoteOutcome.exn).1.localFiles key
        = some ⟨Content.cipher v, st.now⟩
      ∧ (save_data { st with online := true } key v e RemoteOutcome.exn).2
          = SaveResult.recoveredOffline)
    ∧ ((save_data { st with online := true } key v e (RemoteOutcome.status code)).1.localFiles
        = st.localFiles
      ∧ (save_data { st with online := true } key v e (RemoteOutcome.status code)).2
          = SaveResult.onlineError code)
    ∧ ((save_account { st with online := false } u inst e RemoteOutcome.exn).1.localFiles u
        = some ⟨Content.cipher inst, st.now⟩
      ∧ (save_account { st with online := false } u inst e RemoteOutcome.exn).2
          = SaveResult.savedOffline)
    ∧ ((save_account { st with online := true } u inst e RemoteOutcome.exn).1.localFiles u
        = some ⟨Content.cipher inst, st.now⟩
      ∧ (save_account { st with online := true } u inst e RemoteOutcome.exn).2
          = SaveResult.recoveredOffline)
    ∧ ((save_account { st with online := true } u inst e (RemoteOutcome.status code)).1.localFiles
        = st.localFiles
      ∧ (save_account { st with online := true } u inst e (RemoteOutcome.status code)).2
          = SaveResult.onlineError code) := by
  refine ⟨⟨?_, ?_⟩, ⟨?_, ?_⟩, ⟨?_, ?_⟩, ⟨?_, ?_⟩, ⟨?_, ?_⟩, ⟨?_, ?_⟩⟩ <;>
    simp [save_data, save_account, writeData, save_offline_data, save_offline_account,
      setLocal, encryptData, hc]

/-- Concrete state for the C2 witness: probe offline variant is built inside
the amended theorem, so one empty online state suffices. -/
def stC2w : GBState :=
  { remoteFiles := fun _ => none, localFiles := fun _ => none,
    online := true, now := 3, writeLog := [] }

/-- C2 witness: the amended fallback behavior evaluated concretely with
status 500. -/
theorem c2_witness :
    (save_data { stC2w with online := false } "k" [("b", 2)] true RemoteOutcome.exn).1.localFiles "k"
      = some ⟨Content.cipher [("b", 2)], stC2w.now⟩
    ∧ (save_data { stC2w with online := true } "k" [("b", 2)] true
        (RemoteOutcome.status 500)).1.localFiles = stC2w.localFiles :=
  ⟨((c2_save_fallback stC2w "k" "u" [("b", 2)] [("b", 2)] true 500 (by decide)).1).1,
   (((c2_save_fallback stC2w "k" "u" [("b", 2)] [("b", 2)] true 500 (by decide)).2).2).1.1⟩

/-- Concrete state for the C3 counterexample: online, no remote copy needed,
a decodable local copy exists for the key. -/
def stC3 : GBState :=
  { remoteFiles := fun k => if k = "k" then some ⟨Content.cipher [("x", 1)], 9⟩ else none,
    localFiles := fun k => if k = "k" then some ⟨Content.cipher [("x", 1)], 3⟩ else none,
    online := true, now := 7, writeLog := [] }

/-- C3 counterexample: with a local copy present for the key, a transport
failure on the remote read makes both `load_data` and `load_account` raise —
the local copy is not loaded and the failure is not surfaced as a
NotFound-style result. -/
theorem c3_counterexample :
    load_data stC3 "k" true false = LoadDataResult.exn
    ∧ load_data stC3 "k" true false ≠ LoadDataResult.found ⟨"k", [("x", 1)]⟩
    ∧ (load_account stC3 "k" [] true false RemoteOutcome.exn).2.2
        = LoadAccountResult.exn := by
  decide

/-- C3 amended: a transport failure on the remote read is surfaced to the
caller as a raised exception in both `load_data` and `load_account`,
whether or not a local copy exists; no fallback to the local backup happens
on that path (the instance and state are returned unchanged). -/
theorem c3_transport_failure_raises (st : GBState) (key : String) (inst : Record)
    (e : Bool) (syncOut : RemoteOutcome) :
    load_data { st with online := true } key e false = LoadDataResult.exn
    ∧ load_account { st with online := true } key inst e false syncOut
        = ({ st with online := true }, inst, LoadAccountResult.exn) := by
  constructor <;> simp [load_data, load_account]

/-- Concrete state for the C4 counterexample: online, remote copy absent,
decodable local copy present. -/
def stC4 : GBState :=
  { remoteFiles := fun _ => none,
    localFiles := fun k => if k = "k" then some ⟨Content.cipher [("x", 1)], 3⟩ else none,
    online := true, now := 7, writeLog := [] }

/-- C4 counterexample: online with the remote copy absent and a local copy
present, `load_data` returns the `None` fallthrough without consulting the
local backup — it does not return the local record. -/
theorem c4_counterexample :
    load_data stC4 "k" false true = LoadDataResult.noData
    ∧ load_data stC4 "k" false true ≠ LoadDataResult.found ⟨"k", [("x", 1)]⟩ := by
  decide

/-- C4 amended: online with the remote copy absent and a decodable local
copy present, `load_account` does load the local record onto the instance
and performs no remote write (the state is returned unchanged), but
`load_data` in the same situation returns the `None` fallthrough without
consulting the local backup. -/
theorem c4_remote_absent_local_present (st : GBState) (u : String) (inst lv : Record)
    (e : Bool) (syncOut : RemoteOutcome) (lf : LocalFile)
    (hr : st.remoteFiles u = none)
    (hl : st.localFiles u = some lf)
    (hld : decryptData lf.content = some lv) :
    load_account { st with online := true } u inst e true syncOut
      = ({ st with online := true }, applyFields inst lv,
          LoadAccountResult.loadedOfflineNoRemote)
    ∧ load_data { st with online := true } u e true = LoadDataResult.noData := by
  constructor
  · simp [load_account, hr, load_offline_account, hl, hld]
  · simp [load_data, hr]

/-- Concrete state for the C4 witness. -/
def stC4w : GBState :=
  { remoteFiles := fun _ => none,
    localFiles := fun k => if k = "u" then some ⟨Content.cipher [("hp", 7)], 4⟩ else none,
    online := true, now := 2, writeLog := [] }

/-- C4 witness: the amended behavior evaluated at a concrete state. -/
theorem c4_witness :
    load_account { stC4w with online := true } "u" [] false true RemoteOutcome.exn
      = ({ stC4w with online := true }, applyFields [] [("hp", 7)],
          LoadAccountResult.loadedOfflineNoRemote)
    ∧ load_data { stC4w with online := true } "u" false true = LoadDataResult.noData :=
  c4_remote_absent_local_present stC4w "u" [] [("hp", 7)] false RemoteOutcome.exn
    ⟨Content.cipher [("hp", 7)], 4⟩ rfl (by decide) rfl

/-- Concrete state for the C5 counterexample: online, both stores empty. -/
def stC5 : GBState :=
  { remoteFiles := fun _ => none, localFiles := fun _ => none,
    online := true, now := 7, writeLog := [] }

/-- C5 counterexample: a `save_data` whose remote write succeeds with 200
leaves the local backup store empty — no local copy is written after the
successful online save. -/
theorem c5_counterexample :
    (save_data stC5 "k" [("a", 1)] false (RemoteOutcome.status 200)).2
        = SaveResult.savedOnline 200
    ∧ (save_data stC5 "k" [("a", 1)] false (RemoteOutcome.status 200)).1.remoteFiles "k"
        = some ⟨Content.plain [("a", 1)], 7⟩
    ∧ (save_data stC5 "k" [("a", 1)] false (RemoteOutcome.status 200)).1.localFiles "k"
        = none := by
  decide

/-- C5 amended: after a successful (2xx) online save, `save_account` writes
the remote copy and immediately afterwards an encrypted local backup copy,
so both copies exist; `save_data` writes only the remote copy and leaves the
local backup store exactly as it was. -/
theorem c5_success_writes_backup (st : GBState) (u key : String) (inst v : Record)
    (e : Bool) (code : Nat) (hc : code = 200 ∨ code = 201) :
    ((save_account { st with online := true } u inst e (RemoteOutcome.status code)).1.remoteFiles u
        = some ⟨(if e then Content.cipher inst else Content.plain inst), st.now⟩
      ∧ (save_account { st with online := true } u inst e (RemoteOutcome.status code)).1.localFiles u
        = some ⟨Content.cipher inst, st.now⟩
      ∧ (save_account { st with online := true } u inst e (RemoteOutcome.status code)).2
        = SaveResult.savedOnline code)
    ∧ ((save_data { st with online := true } key v e (RemoteOutcome.status code)).1.localFiles
        = st.localFiles
      ∧ (save_data { st with online := true } key v e (RemoteOutcome.status code)).1.remoteFiles key
        = some ⟨(if e then Content.cipher v else Content.plain v), st.now⟩
      ∧ (save_data { st with online := true } key v e (RemoteOutcome.status code)).2
        = SaveResult.savedOnline code) := by
  cases e <;>
    refine ⟨⟨?_, ?_, ?_⟩, ⟨?_, ?_, ?_⟩⟩ <;>
      simp [save_account, save_data, writeData, hc, save_offline_account, setLocal,
        encryptData, jsonDumps]

/-- Concrete state for the C5 witness. -/
def stC5w : GBState :=
  { remoteFiles := fun _ => none, localFiles := fun _ => none,
    online := true, now := 6, writeLog := [] }

/-- C5 witness: the amended behavior evaluated concretely with status 201. -/
theorem c5_witness :
    (save_account { stC5w with online := true } "u" [("a", 3)] false
        (RemoteOutcome.status 201)).1.localFiles "u"
      = some ⟨Content.cipher [("a", 3)], stC5w.now⟩
    ∧ (save_data { stC5w with online := true } "k" [("a", 3)] false
        (RemoteOutcome.status 201)).1.localFiles = stC5w.localFiles :=
  ⟨((c5_success_writes_backup stC5w "u" "k" [("a", 3)] [("a", 3)] false 201
      (by decide)).1).2.1,
   ((c5_success_writes_backup stC5w "u" "k" [("a", 3)] [("a", 3)] false 201
      (by decide)).2).1⟩

/-- C6 counterexample: enumerating two stored entries where the first is
undecodable, `DataSystem.get_all` returns the empty dictionary — the decodable
second entry is not returned — and `PlayerDataSystem.get_all` raises. -/
theorem c6_counterexample :
    getAllData [("a", Content.garbage), ("b", Content.cipher [("x", 1)])] = []
    ∧ getAllPlayers [("a", Content.garbage), ("b", Content.cipher [("x", 1)])] = none := by
  decide

/-- C6 amended: a single undecodable entry DOES abort the enumeration at the
point of failure: `DataSystem.get_all` returns exactly the entries decoded
before the first undecodable file (every later entry is dropped, not
reported), and `PlayerDataSystem.get_all` raises, returning nothing at
all. -/
theorem c6_enumeration_aborts (pre : List (String × Record)) (k : String)
    (c : Content) (rest : List (String × Content))
    (hc : decryptData c = none) :
    getAllData (pre.map (fun p => (p.1, Content.cipher p.2)) ++ (k, c) :: rest) = pre
    ∧ getAllPlayers (pre.map (fun p => (p.1, Content.cipher p.2)) ++ (k, c) :: rest)
        = none := by
  induction pre with
  | nil => simp [getAllData, getAllPlayers, hc]
  | cons p ps ih =>
      refine ⟨?_, ?_⟩ <;> simp [getAllData, getAllPlayers, decryptData, ih.1, ih.2]

/-- C6 witness: the abort evaluated concretely — one decodable entry before
the corrupted file, one after; only the one before survives. -/
theorem c6_witness :
    getAllData ([("a", [("x", 1)])].map (fun p => (p.1, Content.cipher p.2))
        ++ ("b", Content.garbage) :: [("c", Content.cipher [("y", 2)])])
      = [("a", [("x", 1)])]
    ∧ getAllPlayers ([("a", [("x", 1)])].map (fun p => (p.1, Content.cipher p.2))
        ++ ("b", Content.garbage) :: [("c", Content.cipher [("y", 2)])])
      = none :=
  c6_enumeration_aborts [("a", [("x", 1)])] "b" Content.garbage
    [("c", Content.cipher [("y", 2)])] rfl
